import Mathlib

/-!
Verification of the core rule-evaluation engine of `sca_check.py`.

The Python source is shallowly embedded: pure string manipulation is
translated to executable Lean functions over `List Char` / `String`;
host probes (filesystem, process table, command execution) and
interactive prompts are abstracted as explicit environments passed to
the evaluators; Python exceptions become `Option` / `Except` values.
-/

namespace SCA

/-! ## Python string primitives

Models of the Python `str` operations used by the source:
`str.strip`, `str.startswith`, `str.split(sep)`, `str.replace`.
-/

/-- Characters stripped by Python `str.strip()` (ASCII whitespace). -/
def pyIsSpace (c : Char) : Bool :=
  c == ' ' || c == '\t' || c == '\n' || c == '\r' || c == '\x0b' || c == '\x0c'

/-- Python `str.strip()`. -/
def pyStrip (cs : List Char) : List Char :=
  ((cs.dropWhile pyIsSpace).reverse.dropWhile pyIsSpace).reverse

/-- `leadsWith pre s` is true when `pre` is an initial segment of `s`
(Python `str.startswith`). -/
def leadsWith : List Char → List Char → Bool
  | [], _ => true
  | _ :: _, [] => false
  | p :: ps, c :: cs => p == c && leadsWith ps cs

/-- Python `str.startswith` on `String`. -/
def pyStartswith (s pre : String) : Bool :=
  leadsWith pre.data s.data

/-- Worker for Python `str.split(sep)` with a non-empty separator
`s0 :: sr`; splits on each non-overlapping occurrence, left to right.
Structural recursion on a fuel that is always sufficient because every
step consumes at least one character. -/
def pySplitGo (s0 : Char) (sr : List Char) : Nat → List Char → List (List Char)
  | 0, _ => []
  | _ + 1, [] => [[]]
  | fuel + 1, c :: rest =>
    if leadsWith (s0 :: sr) (c :: rest) then
      [] :: pySplitGo s0 sr fuel (rest.drop sr.length)
    else
      match pySplitGo s0 sr fuel rest with
      | [] => [[c]]
      | l :: ls => (c :: l) :: ls

/-- Python `str.split(sep)` (non-empty separator). -/
def pySplit (s sep : String) : List String :=
  match sep.data with
  | [] => [s]
  | s0 :: sr =>
    (pySplitGo s0 sr (s.data.length + 1) s.data).map (fun l => String.mk l)

/-- Worker for Python `str.replace` with a non-empty pattern `p0 :: pr`;
replaces each non-overlapping occurrence, left to right.  Structural
recursion on a fuel that is always sufficient. -/
def pyReplaceGo (p0 : Char) (pr rep : List Char) : Nat → List Char → List Char
  | 0, _ => []
  | _ + 1, [] => []
  | fuel + 1, c :: rest =>
    if leadsWith (p0 :: pr) (c :: rest) then
      rep ++ pyReplaceGo p0 pr rep fuel (rest.drop pr.length)
    else
      c :: pyReplaceGo p0 pr rep fuel rest

/-- Python `str.replace` (the source only replaces non-empty patterns). -/
def pyReplace (s pat rep : String) : String :=
  match pat.data with
  | [] => s
  | p0 :: pr => String.mk (pyReplaceGo p0 pr rep.data (s.data.length + 1) s.data)

/-! ## The three-valued condition aggregator (`Rules.check`)

A rule outcome is `Option Bool`: `some true` / `some false` are the
Python booleans and `none` is Python `None` ("not applicable").
The three loops below mirror the three branches of `Rules.check`,
each carrying the `not_applicable` flag of the source.
-/

/-- The `condition == "all"` loop of `Rules.check`: first `False` returns
`False`; a `None` outcome sets the `not_applicable` flag. -/
def checkAllLoop : List (Option Bool) → Bool → Option Bool
  | [], na => if na then none else some true
  | o :: rest, na =>
    if o == some false then some false
    else checkAllLoop rest (na || (o == none))

/-- The `condition == "any"` loop of `Rules.check`: first truthy outcome
returns `True`; a `None` outcome sets the `not_applicable` flag. -/
def checkAnyLoop : List (Option Bool) → Bool → Option Bool
  | [], na => if na then none else some false
  | o :: rest, na =>
    if o == some true then some true
    else checkAnyLoop rest (na || (o == none))

/-- The `condition == "none"` loop of `Rules.check`: first truthy outcome
returns `False`; a `None` outcome sets the `not_applicable` flag. -/
def checkNoneLoop : List (Option Bool) → Bool → Option Bool
  | [], na => if na then none else some true
  | o :: rest, na =>
    if o == some true then some false
    else checkNoneLoop rest (na || (o == none))

/-- `Rules.check`, as a function of the ordered list of rule outcomes.
An unknown condition raises `ValueError` in the source, modelled as
`Except.error`. -/
def rulesCondCheck (condition : String) (outs : List (Option Bool)) :
    Except String (Option Bool) :=
  if condition == "all" then .ok (checkAllLoop outs false)
  else if condition == "any" then .ok (checkAnyLoop outs false)
  else if condition == "none" then .ok (checkNoneLoop outs false)
  else .error ("Bad Condition " ++ condition)

theorem checkAllLoop_spec (outs : List (Option Bool)) (na : Bool) :
    checkAllLoop outs na =
      if some false ∈ outs then some false
      else if none ∈ outs ∨ na = true then none
      else some true := by
  induction outs generalizing na with
  | nil => simp [checkAllLoop]
  | cons o rest ih =>
    by_cases h : o = some false
    · simp [checkAllLoop, h]
    · cases o with
      | none => simp [checkAllLoop, ih]
      | some b =>
        cases b with
        | false => simp at h
        | true => simp [checkAllLoop, ih]

theorem checkAnyLoop_spec (outs : List (Option Bool)) (na : Bool) :
    checkAnyLoop outs na =
      if some true ∈ outs then some true
      else if none ∈ outs ∨ na = true then none
      else some false := by
  induction outs generalizing na with
  | nil => simp [checkAnyLoop]
  | cons o rest ih =>
    by_cases h : o = some true
    · simp [checkAnyLoop, h]
    · cases o with
      | none => simp [checkAnyLoop, ih]
      | some b =>
        cases b with
        | true => simp at h
        | false => simp [checkAnyLoop, ih]

theorem checkNoneLoop_spec (outs : List (Option Bool)) (na : Bool) :
    checkNoneLoop outs na =
      if some true ∈ outs then some false
      else if none ∈ outs ∨ na = true then none
      else some true := by
  induction outs generalizing na with
  | nil => simp [checkNoneLoop]
  | cons o rest ih =>
    by_cases h : o = some true
    · simp [checkNoneLoop, h]
    · cases o with
      | none => simp [checkNoneLoop, ih]
      | some b =>
        cases b with
        | true => simp at h
        | false => simp [checkNoneLoop, ih]

/-! ## A model of the Python `re` fragment used by compiled chains

Compiled chains are handed to `re.findall(..., flags=re.I)`.  The model
below covers the constructs reachable from the dialect's preprocessing:
literal characters, escaped characters, `.` (any character except
newline), character classes, `^`/`$`, the quantifiers `*` `*?` `+` `+?`
`?` `??`, and non-nested groups.  Constructs outside the fragment make
the parser return `none`, which the evaluators treat like a raised
exception.  Matching is case-insensitive (ASCII), like `re.I`.
-/

/-- ASCII lower-casing on code points, as `re.I` comparison uses. -/
def pyLowerCode (c : Char) : Nat :=
  if 65 ≤ c.toNat ∧ c.toNat ≤ 90 then c.toNat + 32 else c.toNat

/-- Case-insensitive character equality. -/
def ciEq (a b : Char) : Bool := pyLowerCode a == pyLowerCode b

/-- One member of a character class. -/
inductive ClsItem where
  | single (c : Char)
  | range (lo hi : Char)
deriving Repr, DecidableEq

/-- A regex atom. -/
inductive RAtom where
  | anyChar
  | lit (c : Char)
  | digit
  | cls (neg : Bool) (items : List ClsItem)
  | bol
  | eol
deriving Repr, DecidableEq

/-- A quantifier on an atom (`+` is desugared to an atom followed by a
starred atom at parse time). -/
inductive RQuant where
  | one
  | star
  | lazyStar
  | opt
  | lazyOpt
deriving Repr, DecidableEq

/-- A token of a compiled regex program: a quantified atom or a group
boundary. -/
inductive RTok where
  | piece (a : RAtom) (q : RQuant)
  | gopen
  | gclose
deriving Repr, DecidableEq

/-- Case-insensitive membership of `c` in a class item. -/
def clsItemMatch (it : ClsItem) (c : Char) : Bool :=
  match it with
  | .single d => ciEq c d
  | .range lo hi =>
    (lo.toNat ≤ c.toNat ∧ c.toNat ≤ hi.toNat) ||
    (lo.toNat ≤ pyLowerCode c ∧ pyLowerCode c ≤ hi.toNat) ||
    (lo.toNat ≤ c.toNat - 32 ∧ c.toNat - 32 ≤ hi.toNat ∧ 97 ≤ c.toNat ∧ c.toNat ≤ 122)

/-- Whether atom `a` matches character `c` (position assertions `bol`,
`eol` never match a character; they are handled positionally). -/
def atomMatch (a : RAtom) (c : Char) : Bool :=
  match a with
  | .anyChar => c != '\n'
  | .lit d => ciEq c d
  | .digit => 48 ≤ c.toNat && c.toNat ≤ 57
  | .cls neg items =>
    let m := items.any (fun it => clsItemMatch it c)
    if neg then !m else m
  | .bol => false
  | .eol => false

/-- The backtracking matcher.  `runReGo fuel toks s pos cur caps` tries
to match the token list `toks` against the text suffix `s` which starts
at absolute position `pos`; `cur` is the start of the currently open
group and `caps` the completed group spans.  Alternatives are explored
in Python's order (greedy `*` longest-first, lazy `*?` shortest-first),
so the first success is the match Python's engine reports.  Structural
recursion on a fuel measure: every call either drops a token or
consumes a character, so `s.length + toks.length + 1` fuel always
suffices. -/
def runReGo : Nat → (toks : List RTok) → (s : List Char) → (pos : Nat) →
    (cur : Option Nat) → (caps : List (Nat × Nat)) →
    Option (Nat × List (Nat × Nat))
  | 0, _, _, _, _, _ => none
  | _ + 1, [], _, pos, _, caps => some (pos, caps)
  | fuel + 1, .gopen :: rest, s, pos, _, caps =>
    runReGo fuel rest s pos (some pos) caps
  | fuel + 1, .gclose :: rest, s, pos, cur, caps =>
    match cur with
    | some st => runReGo fuel rest s pos none (caps ++ [(st, pos)])
    | none => none
  | fuel + 1, .piece .bol .one :: rest, s, pos, cur, caps =>
    if pos == 0 then runReGo fuel rest s pos cur caps else none
  | fuel + 1, .piece .eol .one :: rest, s, pos, cur, caps =>
    if s.isEmpty then runReGo fuel rest s pos cur caps else none
  | fuel + 1, .piece a .one :: rest, s, pos, cur, caps =>
    match s with
    | [] => none
    | c :: s2 =>
      if atomMatch a c then runReGo fuel rest s2 (pos + 1) cur caps else none
  | fuel + 1, .piece a .star :: rest, s, pos, cur, caps =>
    (match s with
     | [] => none
     | c :: s2 =>
       if atomMatch a c then
         runReGo fuel (.piece a .star :: rest) s2 (pos + 1) cur caps
       else none)
    <|> runReGo fuel rest s pos cur caps
  | fuel + 1, .piece a .lazyStar :: rest, s, pos, cur, caps =>
    runReGo fuel rest s pos cur caps
    <|> (match s with
     | [] => none
     | c :: s2 =>
       if atomMatch a c then
         runReGo fuel (.piece a .lazyStar :: rest) s2 (pos + 1) cur caps
       else none)
  | fuel + 1, .piece a .opt :: rest, s, pos, cur, caps =>
    (match s with
     | [] => none
     | c :: s2 =>
       if atomMatch a c then runReGo fuel rest s2 (pos + 1) cur caps else none)
    <|> runReGo fuel rest s pos cur caps
  | fuel + 1, .piece a .lazyOpt :: rest, s, pos, cur, caps =>
    runReGo fuel rest s pos cur caps
    <|> (match s with
     | [] => none
     | c :: s2 =>
       if atomMatch a c then runReGo fuel rest s2 (pos + 1) cur caps else none)

/-- Match a token list at the start of `s` (absolute position `pos`). -/
def runRe (toks : List RTok) (s : List Char) (pos : Nat)
    (cur : Option Nat) (caps : List (Nat × Nat)) :
    Option (Nat × List (Nat × Nat)) :=
  runReGo (s.length + toks.length + 1) toks s pos cur caps

/-- Scan for the leftmost match, like `re` searching: try an anchor-aware
match at each start position from left to right.  Returns
`(start, end, group spans)` of the first match. -/
def reSearchGo (toks : List RTok) : (s : List Char) → (pos : Nat) →
    Option (Nat × Nat × List (Nat × Nat))
  | s, pos =>
    match runRe toks s pos none [] with
    | some (e, caps) => some (pos, e, caps)
    | none =>
      match s with
      | [] => none
      | _ :: s2 => reSearchGo toks s2 (pos + 1)

/-- Leftmost match of a compiled regex in a line. -/
def reSearch (toks : List RTok) (line : List Char) :
    Option (Nat × Nat × List (Nat × Nat)) :=
  reSearchGo toks line 0

/-- `bool(re.findall(pattern, line))`: is there any match at all. -/
def reTest (toks : List RTok) (line : List Char) : Bool :=
  (reSearch toks line).isSome

/-- Surface syntax of a quantifier. -/
inductive QTok where
  | qnone | qstar | qlazystar | qplus | qlazyplus | qopt | qlazyopt
deriving Repr, DecidableEq

/-- Read a quantifier from the front of the input, if any. -/
def readQuant : List Char → QTok × List Char
  | '*' :: '?' :: r => (.qlazystar, r)
  | '*' :: r => (.qstar, r)
  | '+' :: '?' :: r => (.qlazyplus, r)
  | '+' :: r => (.qplus, r)
  | '?' :: '?' :: r => (.qlazyopt, r)
  | '?' :: r => (.qopt, r)
  | r => (.qnone, r)

/-- Tokens for an atom under a quantifier (`a+` becomes `a a*`). -/
def quantToks (a : RAtom) (q : QTok) : List RTok :=
  match q with
  | .qnone => [.piece a .one]
  | .qstar => [.piece a .star]
  | .qlazystar => [.piece a .lazyStar]
  | .qplus => [.piece a .one, .piece a .star]
  | .qlazyplus => [.piece a .one, .piece a .lazyStar]
  | .qopt => [.piece a .opt]
  | .qlazyopt => [.piece a .lazyOpt]

/-- Position assertions cannot be repeated (`re.error: nothing to
repeat`). -/
def quantAllowed (a : RAtom) : Bool :=
  match a with
  | .bol => false
  | .eol => false
  | _ => true

/-- Parse the body of a character class (after `[`, optional `^` and a
leading literal `]` were consumed) up to the closing `]`.  Returns the
items and the rest of the input. -/
def parseCls : (cs : List Char) → Option (List ClsItem × List Char)
  | [] => none
  | ']' :: rest => some ([], rest)
  | '\\' :: c :: rest =>
    let item := if c == 'd' then ClsItem.range '0' '9' else ClsItem.single c
    (parseCls rest).map (fun p => (item :: p.1, p.2))
  | c :: '-' :: d :: rest =>
    if d == ']' then some ([ClsItem.single c, ClsItem.single '-'], rest)
    else (parseCls rest).map (fun p => (ClsItem.range c d :: p.1, p.2))
  | c :: rest => (parseCls rest).map (fun p => (ClsItem.single c :: p.1, p.2))

/-- Escape letters with class meanings the model does not cover. -/
def unsupportedEscape (c : Char) : Bool :=
  c == 'w' || c == 'W' || c == 's' || c == 'S' || c == 'b' || c == 'B' ||
  c == 'A' || c == 'Z' || c == 'D'

/-- Parse one compiled chain regex into tokens.  `d` is the group depth
(0 or 1; nested groups are outside the fragment).  The fuel is always
sufficient because every step consumes at least one character. -/
def parseRegexGo : Nat → List Char → Nat → Option (List RTok)
  | 0, _, _ => none
  | _ + 1, [], d => if d == 0 then some [] else none
  | fuel + 1, '(' :: rest, d =>
    if d != 0 then none
    else
      match rest with
      | '?' :: _ => none
      | _ => (parseRegexGo fuel rest 1).map (.gopen :: ·)
  | fuel + 1, ')' :: rest, d =>
    if d != 1 then none
    else
      match readQuant rest with
      | (.qnone, r) => (parseRegexGo fuel r 0).map (.gclose :: ·)
      | _ => none
  | fuel + 1, '[' :: rest, d =>
    let (neg, rest1) :=
      match rest with
      | '^' :: r => (true, r)
      | _ => (false, rest)
    let (lead, rest2) :=
      match rest1 with
      | ']' :: r => ([ClsItem.single ']'], r)
      | _ => (([] : List ClsItem), rest1)
    match parseCls rest2 with
    | none => none
    | some (items, rem) =>
      let (q, r) := readQuant rem
      (parseRegexGo fuel r d).map (quantToks (.cls neg (lead ++ items)) q ++ ·)
  | fuel + 1, '\\' :: cs, d =>
    match cs with
    | [] => none
    | c :: rest =>
      if unsupportedEscape c then none
      else
        let a := if c == 'd' then RAtom.digit else RAtom.lit c
        let (q, r) := readQuant rest
        (parseRegexGo fuel r d).map (quantToks a q ++ ·)
  | fuel + 1, '^' :: rest, d =>
    match readQuant rest with
    | (.qnone, _) => (parseRegexGo fuel rest d).map (.piece .bol .one :: ·)
    | _ => none
  | fuel + 1, '$' :: rest, d =>
    match readQuant rest with
    | (.qnone, _) => (parseRegexGo fuel rest d).map (.piece .eol .one :: ·)
    | _ => none
  | _ + 1, '*' :: _, _ => none
  | _ + 1, '+' :: _, _ => none
  | _ + 1, '?' :: _, _ => none
  | _ + 1, '|' :: _, _ => none
  | fuel + 1, '.' :: rest, d =>
    let (q, r) := readQuant rest
    (parseRegexGo fuel r d).map (quantToks .anyChar q ++ ·)
  | fuel + 1, c :: rest, d =>
    let (q, r) := readQuant rest
    (parseRegexGo fuel r d).map (quantToks (.lit c) q ++ ·)

/-- Parse a compiled chain regex into tokens; `none` models `re.error`
or a construct outside the fragment. -/
def parseRegex (cs : List Char) : Option (List RTok) :=
  parseRegexGo (cs.length + 1) cs 0

/-! ## `Regex`: the wazuh pattern dialect

`Regex.__init__` preprocesses the pattern with a fixed chain of
`str.replace` calls and splits on `&&`; `Regex.check` evaluates the
chains line by line.
-/

/-- The preprocessing chain of `Regex.__init__`, in source order:
make `*` lazy; swap escaped and unescaped dots (via the `REGEX_DOT`
placeholder); expand `\w`, `\W`, `\s`, `\S`, `\p`. -/
def wazuhPreprocess (pattern : String) : String :=
  let s1 := pyReplace pattern "*" "*?"
  let s2 := pyReplace s1 "\\." "REGEX_DOT"
  let s3 := pyReplace s2 "." "\\."
  let s4 := pyReplace s3 "REGEX_DOT" "."
  let s5 := pyReplace s4 "\\w" "[A-Za-z0-9-@_]"
  let s6 := pyReplace s5 "\\W" "[^A-Za-z0-9-@_]"
  let s7 := pyReplace s6 "\\s" "[ ]"
  let s8 := pyReplace s7 "\\S" "[^ ]"
  pyReplace s8 "\\p" "[()*+,-.:;<=>?[]!\x22\x27#$%&|\x7b\x7d]"

/-- `self.chains`: split the preprocessed pattern on `&&` and strip each
part. -/
def compileChains (pattern : String) : List String :=
  (pySplit (wazuhPreprocess pattern) "&&").map
    (fun c => String.mk (pyStrip c.data))

/-- The `Regex` object: original pattern and compiled chains. -/
structure Regex where
  pattern : String
  chains : List String
deriving Repr, DecidableEq

/-- `Regex.__init__`. -/
def Regex.make (pattern : String) : Regex :=
  ⟨pattern, compileChains pattern⟩

/-- `line[a:b]`. -/
def sliceChars (cs : List Char) (a b : Nat) : List Char :=
  (cs.drop a).take (b - a)

/-- Digits of a decimal numeral. -/
def digitsToNat : List Char → Option Nat
  | [] => none
  | ds =>
    if ds.all (fun c => 48 ≤ c.toNat && c.toNat ≤ 57) then
      some (ds.foldl (fun n c => n * 10 + (c.toNat - 48)) 0)
    else none

/-- Python `int(str)` on the strings this program extracts: optional
sign and decimal digits; anything else raises `ValueError` (`none`). -/
def pyInt (cs : List Char) : Option Int :=
  match pyStrip cs with
  | '-' :: ds => (digitsToNat ds).map (fun n => -(n : Int))
  | '+' :: ds => (digitsToNat ds).map (fun n => (n : Int))
  | ds => (digitsToNat ds).map (fun n => (n : Int))

/-- The `Regex.ops` comparison table; a key outside the table raises
`KeyError` (`none`). -/
def opsLookup (op : String) : Option (Int → Int → Bool) :=
  if op == "<" then some (fun a b => decide (a < b))
  else if op == "<=" then some (fun a b => decide (a ≤ b))
  else if op == "=<" then some (fun a b => decide (a ≤ b))
  else if op == "==" then some (fun a b => decide (a = b))
  else if op == "!=" then some (fun a b => decide (a ≠ b))
  else if op == "=>" then some (fun a b => decide (a ≥ b))
  else if op == ">=" then some (fun a b => decide (a ≥ b))
  else if op == ">" then some (fun a b => decide (a > b))
  else none

/-- Number of groups of a parsed regex. -/
def countGroups (toks : List RTok) : Nat :=
  toks.countP (fun t => t == .gopen)

/-- Python `\s` as a class atom. -/
def wsAtom : RAtom :=
  .cls false [.single ' ', .single '\t', .single '\n', .single '\r',
    .single '\x0b', .single '\x0c']

/-- The `[<>=!]` class of the `n:` header regex. -/
def opAtom : RAtom :=
  .cls false [.single '<', .single '>', .single '=', .single '!']

/-- A sequence of literal tokens. -/
def litToks (s : List Char) : List RTok :=
  s.map (fun c => .piece (.lit c) .one)

/-- Tokens of the fixed header regex
`n:(.*)?\s+compare\s+([<>=!]*)\s+(\d+)` that `Regex.check` runs on an
`n:` chain (`(.*)?` behaves like `(.*)` because `.*` always matches the
empty string, and `x+` is `x x*`). -/
def nHeaderToks : List RTok :=
  litToks ['n', ':'] ++
  [.gopen, .piece .anyChar .star, .gclose,
   .piece wsAtom .one, .piece wsAtom .star] ++
  litToks "compare".data ++
  [.piece wsAtom .one, .piece wsAtom .star,
   .gopen, .piece opAtom .star, .gclose,
   .piece wsAtom .one, .piece wsAtom .star,
   .gopen, .piece .digit .one, .piece .digit .star, .gclose]

/-- Evaluate an `n:` chain against one line, mirroring the `n:` branch of
`Regex.check`.  `none` models a raised exception (header regex does not
match → `IndexError`; bad sub-pattern → `re.error`; non-numeric capture
→ `ValueError`; unknown operator → `KeyError`); the operator lookup is
only reached when a value was found, as in the source's short-circuit
`not value or not self.ops[op](...)`. -/
def nChainEval (chain line : List Char) : Option Bool :=
  match reSearch nHeaderToks chain with
  | none => none
  | some (_, _, caps) =>
    match caps with
    | [(s1, e1), (s2, e2), (s3, e3)] =>
      let subpat := sliceChars chain s1 e1
      let op := String.mk (sliceChars chain s2 e2)
      let stdv := sliceChars chain s3 e3
      match parseRegex subpat with
      | none => none
      | some toks =>
        match reSearch toks line with
        | none => some false
        | some (ms, me, mcaps) =>
          let captured : Option (List Char) :=
            match countGroups toks with
            | 0 => some (sliceChars line ms me)
            | 1 =>
              match mcaps with
              | [(a, b)] => some (sliceChars line a b)
              | _ => none
            | _ => none
          match captured with
          | none => none
          | some vc =>
            match pyInt vc, opsLookup op, pyInt stdv with
            | some iv, some f, some sv => some (f iv sv)
            | _, _, _ => none
    | _ => none

/-- Evaluate one chain against one line, following the dispatch order of
`Regex.check`: `r:` substring-regex, `!r:` negated substring-regex,
`n:` numeric comparison, otherwise exact string equality with the whole
line.  `none` models a raised exception. -/
def chainEval (chain line : String) : Option Bool :=
  if pyStartswith chain "r:" then
    match parseRegex (chain.data.drop 2) with
    | none => none
    | some toks => some (reTest toks line.data)
  else if pyStartswith chain "!r:" then
    match parseRegex (chain.data.drop 3) with
    | none => none
    | some toks => some (!reTest toks line.data)
  else if pyStartswith chain "n:" then
    nChainEval chain.data line.data
  else
    some (chain == line)

/-- The inner loop of `Regex.check`: a line satisfies the pattern when
every chain evaluates true; the first failing chain breaks. -/
def lineEval : List String → String → Option Bool
  | [], _ => some true
  | c :: rest, line =>
    match chainEval c line with
    | none => none
    | some false => some false
    | some true => lineEval rest line

/-- The outer loop of `Regex.check`: return `True` on the first line
satisfying all chains, `False` if no line does. -/
def checkLines (chains : List String) : List String → Option Bool
  | [] => some false
  | l :: rest =>
    match lineEval chains l with
    | none => none
    | some true => some true
    | some false => checkLines chains rest

/-- `text.split("\n")`. -/
def pyLines (text : String) : List String :=
  pySplit text "\n"

/-- `Regex.check`: split the text into lines and evaluate the chains;
`none` models a raised exception. -/
def Regex.check (r : Regex) (text : String) : Option Bool :=
  checkLines r.chains (pyLines text)

/-! ## `Rule` and `ParsedRule`

`Rule.parse` turns one rule string into a typed predicate; `Rule.check`
executes it.  The host probes behind the predicates (filesystem,
process table, shell command) are external I/O and are abstracted as an
environment mapping each bound predicate to its result: `Except.ok b`
for a boolean outcome, `Except.error e` for a raised predicate error.
-/

/-- A bound predicate: the source's `ParsedRule.function` together with
its keyword arguments. -/
inductive PredCall where
  | checkFileExists (path : String)
  | checkRegexAgainstFile (path : String) (regex : Regex)
  | checkRegexAgainstCommand (cmd : String) (regex : Regex)
  | checkDirExists (path : String)
  | checkDirContains (path : String) (filePattern : Regex)
  | checkRegexAgainstDir (path : String) (filePattern : Regex) (regex : Regex)
  | checkProcessExists (processName : String)
deriving Repr, DecidableEq

/-- The errors a predicate can raise: wrong filesystem object type,
target vanished between parse and check, process-probe failure, command
timeout, or any other exception (the source catches them all alike). -/
inductive RuleError where
  | isADirectory (path : String)
  | fileNotFound (path : String)
  | notADirectory (path : String)
  | commandTimeout
  | processProbeFailure
  | other (msg : String)
deriving Repr, DecidableEq

/-- A host environment: the result of executing each bound predicate. -/
def HostEnv : Type := PredCall → Except RuleError Bool

/-- The source's `ParsedRule`: tag, negation flag and bound predicate. -/
structure ParsedRule where
  tag : String
  revert : Bool
  call : PredCall
deriving Repr, DecidableEq

/-- `Rule.parse`: split on `->`, strip the parts, peel a leading
`not `, and dispatch on the selector and the number of parts.
`Except.error` models the raised `ValueError`s. -/
def Rule.parse (rule : String) : Except String ParsedRule :=
  let parts := (pySplit rule "->").map (fun p => String.mk (pyStrip p.data))
  match parts with
  | [] => .error "Invalid rule"
  | p0 :: rest =>
    let revert := pyStartswith p0 "not "
    let toCheck := if revert then String.mk (p0.data.drop 4) else p0
    if pyStartswith toCheck "f:" then
      match rest with
      | [] =>
        .ok ⟨"FileExistence", revert,
          .checkFileExists (String.mk (toCheck.data.drop 2))⟩
      | [p1] =>
        .ok ⟨"RegexAgainstFile", revert,
          .checkRegexAgainstFile (String.mk (toCheck.data.drop 2)) (Regex.make p1)⟩
      | _ => .error "Invalid file check rule"
    else if pyStartswith toCheck "c:" then
      match rest with
      | [p1] =>
        .ok ⟨"RegexAgainstCommand", revert,
          .checkRegexAgainstCommand (String.mk (toCheck.data.drop 2)) (Regex.make p1)⟩
      | _ => .error "Invalid command check rule"
    else if pyStartswith toCheck "d:" then
      match rest with
      | [] =>
        .ok ⟨"DirExistence", revert,
          .checkDirExists (String.mk (toCheck.data.drop 2))⟩
      | [p1] =>
        .ok ⟨"DirContains", revert,
          .checkDirContains (String.mk (toCheck.data.drop 2)) (Regex.make p1)⟩
      | [p1, p2] =>
        .ok ⟨"RegexAgainstDir", revert,
          .checkRegexAgainstDir (String.mk (toCheck.data.drop 2))
            (Regex.make p1) (Regex.make p2)⟩
      | _ => .error "Invalid glob check rule"
    else if pyStartswith toCheck "p:" then
      match rest with
      | [] =>
        .ok ⟨"CheckProcessExists", revert,
          .checkProcessExists (String.mk (toCheck.data.drop 2))⟩
      | _ => .error "Invalid process check rule"
    else if pyStartswith toCheck "r:" then
      .error "r: is not implemented"
    else
      .error "Invalid rule"

/-- A `Rule` object: `Rule.__init__` keeps the rule string and stores
`None` for `parsed` when `parse` raised (the `RuleParseError` report). -/
structure Rule where
  rule : String
  parsed : Option ParsedRule
deriving Repr, DecidableEq

/-- `Rule.__init__`. -/
def Rule.make (rule : String) : Rule :=
  ⟨rule, (Rule.parse rule).toOption⟩

/-- `Rule.check`: an unparsed rule returns `True`; otherwise run the
predicate, negate a boolean result when `revert` is set, and turn a
raised predicate error into `None` (the `RuleCheckError` report falls
off the end of the function). -/
def Rule.check (env : HostEnv) (r : Rule) : Option Bool :=
  match r.parsed with
  | none => some true
  | some p =>
    match env p.call with
    | .error _ => none
    | .ok res => if p.revert then some (!res) else some res

/-! ## `Rules`: ordering and aggregation -/

/-- Tags sorted into the existence-first group by `Rules.__init__`. -/
def isExistenceRule (r : Rule) : Bool :=
  match r.parsed with
  | some p =>
    p.tag == "FileExistence" || p.tag == "DirExistence" || p.tag == "DirContains"
  | none => false

/-- The loop of `Rules.__init__`: parse each rule string in order,
appending to the existence or non-existence accumulator. -/
def rulesBuildGo : List String → List Rule → List Rule → List Rule
  | [], ex, nonex => ex ++ nonex
  | r :: rest, ex, nonex =>
    let pr := Rule.make r
    if isExistenceRule pr then rulesBuildGo rest (ex ++ [pr]) nonex
    else rulesBuildGo rest ex (nonex ++ [pr])

/-- `Rules.__init__`: `self.parsed`, existence checks first. -/
def rulesBuild (rules : List String) : List Rule :=
  rulesBuildGo rules [] []

/-- A `Rules` object. -/
structure Rules where
  condition : String
  parsed : List Rule
deriving Repr, DecidableEq

/-- `Rules.__init__`. -/
def Rules.make (condition : String) (rules : List String) : Rules :=
  ⟨condition, rulesBuild rules⟩

/-- `Rules.check`: evaluate the parsed rules in list order and aggregate
their outcomes under the condition. -/
def Rules.check (env : HostEnv) (rs : Rules) : Except String (Option Bool) :=
  rulesCondCheck rs.condition (rs.parsed.map (Rule.check env))

/-! ## `Check.check`: the status partitions

`Check.check` sets the status and appends the check to one of the three
class-level lists `passed` / `failed` / `not_applicable` according to
the aggregator outcome.  Checks are identified by their id.
-/

/-- The class-level partition lists of `Check`. -/
structure CheckPartitions where
  passed : List Nat
  failed : List Nat
  notApplicable : List Nat
deriving Repr, DecidableEq

/-- The partition update of one `Check.check` call on a check with id
`cid` whose aggregator returned `res`: append to the matching list
(`if res / elif res is False / elif res is None`). -/
def checkUpdate (s : CheckPartitions) (cid : Nat) (res : Option Bool) :
    CheckPartitions :=
  match res with
  | some true => { s with passed := s.passed ++ [cid] }
  | some false => { s with failed := s.failed ++ [cid] }
  | none => { s with notApplicable := s.notApplicable ++ [cid] }

/-! ## The `Solution` action tree

A `SolutionAct` names a primitive in the closed registry, and maps
expected return values to nested act sequences.  Primitive invocations
are external (shell commands, interactive prompts), so execution is
modelled against a response oracle: the `k`-th primitive invocation of
a run returns `oracle k`.  Executing an act yields the trace of invoked
function names and the next invocation index.
-/

/-- An `Act` node: function name, positional and keyword arguments, and
the `on_response` branches (`value`, nested acts). -/
inductive Act where
  | node (function : String) (args : List String)
      (kwargs : List (String × String))
      (onResponse : List (String × List Act))

mutual

/-- `SolutionAct.apply`: invoke the primitive, then walk `on_response`
in order, recursively applying every branch whose `value` equals the
response.  Returns the invocation trace and the next oracle index. -/
def applyAct (oracle : Nat → String) : Act → Nat → List String × Nat
  | .node f _ _ onr, k =>
    let resp := oracle k
    let (tr, k2) := applyBranches oracle resp onr (k + 1)
    (f :: tr, k2)

/-- The `for response in self.on_response` loop of `SolutionAct.apply`:
apply the nested sequence of every entry whose value equals `resp`. -/
def applyBranches (oracle : Nat → String) (resp : String) :
    List (String × List Act) → Nat → List String × Nat
  | [], k => ([], k)
  | (v, acts) :: rest, k =>
    if resp == v then
      let (t1, k1) := applySeq oracle acts k
      let (t2, k2) := applyBranches oracle resp rest k1
      (t1 ++ t2, k2)
    else applyBranches oracle resp rest k

/-- `SolutionActs.apply`: apply a sequence of acts in order. -/
def applySeq (oracle : Nat → String) : List Act → Nat → List String × Nat
  | [], k => ([], k)
  | a :: rest, k =>
    let (t1, k1) := applyAct oracle a k
    let (t2, k2) := applySeq oracle rest k1
    (t1 ++ t2, k2)

end

/-- The nested sequences of `on_response` entries whose declared value
equals the response, in declaration order. -/
def matchingActs (resp : String) (onr : List (String × List Act)) : List Act :=
  ((onr.filter (fun p => resp == p.1)).map (fun p => p.2)).flatten

/-! ## `Check.apply_solution`: the bounded retry loop

The loop body depends on two interactive prompts and on re-running the
aggregator, all external, so the model takes a retry-confirmation
oracle `rc` (the answer to the `k`-th "Retry?" prompt) and a recheck
oracle `cr` (the tri-valued outcome of the `k`-th re-evaluation).  The
result records how many times the action tree was applied, how many
re-evaluations ran, and why the loop ended.
-/

/-- Why `apply_solution` returned. -/
inductive ApplyResult where
  | declinedStart
  | finished
  | passedAt (k : Nat)
  | declinedAt (k : Nat)
  | maxedOut
deriving Repr, DecidableEq

/-- Counters and outcome of one `apply_solution` run. -/
structure ApplyStats where
  applies : Nat
  rechecks : Nat
  result : ApplyResult
deriving Repr, DecidableEq

/-- The `for retry in range(total)` loop of `apply_solution`.  At
`retry == 4` it reports "Reached Maximum tries" and returns; at
`retry > 0` it re-evaluates the check (stopping on `PASSED`) and asks
whether to retry; then it applies the action tree once. -/
def applyLoop (rc : Nat → Bool) (cr : Nat → Option Bool) :
    Nat → Nat → Nat → Nat → ApplyStats
  | 0, _, aps, rcs => ⟨aps, rcs, .finished⟩
  | fuel + 1, retry, aps, rcs =>
    if retry == 4 then ⟨aps, rcs, .maxedOut⟩
    else if retry > 0 then
      if cr retry == some true then ⟨aps, rcs + 1, .passedAt retry⟩
      else if !rc retry then ⟨aps, rcs + 1, .declinedAt retry⟩
      else applyLoop rc cr fuel (retry + 1) (aps + 1) (rcs + 1)
    else applyLoop rc cr fuel (retry + 1) (aps + 1) rcs

/-- `Check.apply_solution`: an initial confirmation, then the retry loop
over `range(self.solution.recheck and 5 or 1)` (`5` iterations when
`recheck` is `True`, otherwise `1`). -/
def applySolution (confirmStart : Bool) (recheck : Option Bool)
    (rc : Nat → Bool) (cr : Nat → Option Bool) : ApplyStats :=
  if !confirmStart then ⟨0, 0, .declinedStart⟩
  else applyLoop rc cr (if recheck == some true then 5 else 1) 0 0 0

/-! ## Shared helper lemmas -/

/-- The `Rules.__init__` loop is a stable partition: existence-tagged
rules in input order, then the rest in input order, after any
accumulator prefixes. -/
theorem rulesBuildGo_eq (rules : List String) (ex nonex : List Rule) :
    rulesBuildGo rules ex nonex =
      (ex ++ (rules.map Rule.make).filter isExistenceRule) ++
      (nonex ++ (rules.map Rule.make).filter (fun r => !isExistenceRule r)) := by
  induction rules generalizing ex nonex with
  | nil => simp [rulesBuildGo]
  | cons r rest ih =>
    by_cases h : isExistenceRule (Rule.make r)
    · simp [rulesBuildGo, h, ih]
    · simp [rulesBuildGo, h, ih]

/-- A line satisfies the chain loop of `Regex.check` exactly when every
chain evaluates to `True` on it. -/
theorem lineEval_true_iff (cs : List String) (l : String) :
    lineEval cs l = some true ↔ ∀ c ∈ cs, chainEval c l = some true := by
  induction cs with
  | nil => simp [lineEval]
  | cons c rest ih =>
    cases h : chainEval c l with
    | none => simp [lineEval, h]
    | some b => cases b <;> simp [lineEval, h, ih]

/-- When the line loop of `Regex.check` returns without an exception,
it returns `True` exactly when some line satisfies all chains. -/
theorem checkLines_spec (cs : List String) (ls : List String) (b : Bool)
    (hck : checkLines cs ls = some b) :
    b = true ↔ ∃ l ∈ ls, lineEval cs l = some true := by
  induction ls with
  | nil =>
    simp [checkLines] at hck
    simp [← hck]
  | cons l rest ih =>
    cases h : lineEval cs l with
    | none => simp [checkLines, h] at hck
    | some lb =>
      cases lb with
      | true =>
        simp [checkLines, h] at hck
        simp [← hck, h]
      | false =>
        simp [checkLines, h] at hck
        simp [h, ih hck]

/-! ## Claims -/

/-- C1: for every ordered list of three-valued rule outcomes, the
aggregator `Rules.check` returns, under `all`: `False` if any outcome
is `False`, else `NotApplicable` if any outcome is `NotApplicable`,
else `True`; under `any`: `True` if any outcome is `True`, else
`NotApplicable` if any is `NotApplicable`, else `False`; under `none`:
`False` if any outcome is `True`, else `NotApplicable` if any is
`NotApplicable`, else `True`. -/
theorem rulesCondCheck_three_valued (outs : List (Option Bool)) :
    rulesCondCheck "all" outs =
      .ok (if some false ∈ outs then some false
           else if none ∈ outs then none else some true) ∧
    rulesCondCheck "any" outs =
      .ok (if some true ∈ outs then some true
           else if none ∈ outs then none else some false) ∧
    rulesCondCheck "none" outs =
      .ok (if some true ∈ outs then some false
           else if none ∈ outs then none else some true) := by
  refine ⟨?_, ?_, ?_⟩ <;>
    simp [rulesCondCheck, checkAllLoop_spec, checkAnyLoop_spec, checkNoneLoop_spec]

/-- C10: a check with an empty rule list evaluates to `True` under
`all`, `False` under `any`, and `True` under `none`; never
`NotApplicable`. -/
theorem rules_empty_outcomes (env : HostEnv) :
    Rules.check env (Rules.make "all" []) = .ok (some true) ∧
    Rules.check env (Rules.make "any" []) = .ok (some false) ∧
    Rules.check env (Rules.make "none" []) = .ok (some true) :=
  ⟨rfl, rfl, rfl⟩

/-- C3 counterexample: re-evaluating a check (id 7) that first failed
and then passed leaves it a member of both the failed and the passed
partitions — `Check.check` appends without removing, so membership is
not moved and is not exclusive. -/
theorem checkUpdate_duplicates_membership :
    7 ∈ (checkUpdate (checkUpdate ⟨[], [], []⟩ 7 (some false)) 7 (some true)).passed ∧
    7 ∈ (checkUpdate (checkUpdate ⟨[], [], []⟩ 7 (some false)) 7 (some true)).failed := by
  decide

/-- C3 amended: `Check.check` appends the record to the partition of the
new outcome and leaves every prior membership in place (append, not
move), so a re-evaluated record can belong to two partitions. -/
theorem checkUpdate_append_not_move (s : CheckPartitions) (cid : Nat)
    (res : Option Bool) :
    (checkUpdate s cid res).passed =
      s.passed ++ (if res = some true then [cid] else []) ∧
    (checkUpdate s cid res).failed =
      s.failed ++ (if res = some false then [cid] else []) ∧
    (checkUpdate s cid res).notApplicable =
      s.notApplicable ++ (if res = none then [cid] else []) := by
  rcases res with _ | b
  · simp [checkUpdate]
  · cases b <;> simp [checkUpdate]

/-- C8: the rule list built by `Rules.__init__` is the existence-tagged
rules (`FileExistence`, `DirExistence`, `DirContains`) in input order
followed by all other rules (unparsed ones included) in input order,
and `Rules.check` evaluates exactly that list in that order. -/
theorem rules_existence_first (condition : String) (rules : List String) :
    (Rules.make condition rules).parsed =
      (rules.map Rule.make).filter isExistenceRule ++
      (rules.map Rule.make).filter (fun r => !isExistenceRule r) ∧
    (∀ r ∈ (rules.map Rule.make).filter isExistenceRule,
      isExistenceRule r = true) ∧
    ∀ env : HostEnv,
      Rules.check env (Rules.make condition rules) =
        rulesCondCheck condition
          (((rules.map Rule.make).filter isExistenceRule ++
            (rules.map Rule.make).filter (fun r => !isExistenceRule r)).map
            (Rule.check env)) := by
  have hbuild : (Rules.make condition rules).parsed =
      (rules.map Rule.make).filter isExistenceRule ++
      (rules.map Rule.make).filter (fun r => !isExistenceRule r) := by
    simpa using rulesBuildGo_eq rules [] []
  refine ⟨hbuild, ?_, ?_⟩
  · intro r hr
    exact (List.mem_filter.mp hr).2
  · intro env
    rw [Rules.check, hbuild]
    rfl

/-- C6: a rule string that fails to parse is retained with `parsed =
None`, every evaluation of it returns `True` regardless of the host
environment, and it still appears in the rule list `Rules.__init__`
builds — it never blocks aggregation. -/
theorem unparsed_rule_vacuous_true (s msg : String)
    (h : Rule.parse s = .error msg) :
    (Rule.make s).parsed = none ∧
    (∀ env : HostEnv, Rule.check env (Rule.make s) = some true) ∧
    ∀ rules : List String, s ∈ rules → Rule.make s ∈ rulesBuild rules := by
  have hp : (Rule.make s).parsed = none := by
    simp [Rule.make, h, Except.toOption]
  refine ⟨hp, fun env => by simp [Rule.check, hp], fun rules hs => ?_⟩
  have hmem : Rule.make s ∈ rules.map Rule.make := List.mem_map_of_mem _ hs
  rw [rulesBuild, rulesBuildGo_eq]
  simp only [List.nil_append, List.mem_append, List.mem_filter]
  by_cases hex : isExistenceRule (Rule.make s)
  · exact Or.inl ⟨hmem, hex⟩
  · exact Or.inr ⟨hmem, by simp [hex]⟩

/-- C6 witness: the unsupported `r:` selector fails to parse; the rule
is retained, evaluates to `True`, and stays in the built rule list. -/
theorem unparsed_rule_vacuous_true_witness :
    (Rule.make "r:systemd").parsed = none ∧
    Rule.check (fun _ => .ok false) (Rule.make "r:systemd") = some true ∧
    Rule.make "r:systemd" ∈ rulesBuild ["f:/etc/passwd", "r:systemd"] :=
  have h := unparsed_rule_vacuous_true "r:systemd" "r: is not implemented" (by rfl)
  ⟨h.1, h.2.1 _, h.2.2 ["f:/etc/passwd", "r:systemd"] (by simp)⟩

/-- C7: when the predicate of a parsed rule raises a defined error, the
outcome of `Rule.check` is `NotApplicable` (negation does not apply to
it); when it returns a boolean, a negated rule maps `True` to `False`
and `False` to `True`. -/
theorem rule_error_not_applicable (env : HostEnv) (r : Rule)
    (p : ParsedRule) (hp : r.parsed = some p) :
    (∀ e : RuleError, env p.call = .error e → Rule.check env r = none) ∧
    ∀ b : Bool, env p.call = .ok b →
      Rule.check env r = some (if p.revert then !b else b) := by
  constructor
  · intro e he
    simp [Rule.check, hp, he]
  · intro b hb
    cases hrev : p.revert <;> simp [Rule.check, hp, hb, hrev]

/-- C7 witness: a negated file-existence rule yields `NotApplicable`
when the probe raises `FileNotFoundError`, and `False` when the probe
returns `True`. -/
theorem rule_error_not_applicable_witness :
    Rule.check (fun _ => .error (.fileNotFound "/etc/shadow"))
      (Rule.make "not f:/etc/shadow") = none ∧
    Rule.check (fun _ => .ok true) (Rule.make "not f:/etc/shadow") = some false :=
  ⟨(rule_error_not_applicable (fun _ => .error (.fileNotFound "/etc/shadow"))
      (Rule.make "not f:/etc/shadow")
      ⟨"FileExistence", true, .checkFileExists "/etc/shadow"⟩ (by rfl)).1 _ rfl,
   (rule_error_not_applicable (fun _ => .ok true)
      (Rule.make "not f:/etc/shadow")
      ⟨"FileExistence", true, .checkFileExists "/etc/shadow"⟩ (by rfl)).2 true rfl⟩

/-- Applying a concatenation of act sequences is applying the first,
then the second from where the first left off. -/
theorem applySeq_append (oracle : Nat → String) (l1 l2 : List Act) (k : Nat) :
    applySeq oracle (l1 ++ l2) k =
      ((applySeq oracle l1 k).1 ++
        (applySeq oracle l2 (applySeq oracle l1 k).2).1,
       (applySeq oracle l2 (applySeq oracle l1 k).2).2) := by
  induction l1 generalizing k with
  | nil => simp [applySeq]
  | cons a rest ih => simp [applySeq, ih, List.append_assoc]

/-- The `on_response` walk applies exactly the nested sequences whose
declared value equals the response, in order. -/
theorem applyBranches_eq_matching (oracle : Nat → String) (resp : String)
    (onr : List (String × List Act)) (k : Nat) :
    applyBranches oracle resp onr k =
      applySeq oracle (matchingActs resp onr) k := by
  induction onr generalizing k with
  | nil => simp [applyBranches, matchingActs, applySeq]
  | cons p rest ih =>
    rcases p with ⟨v, acts⟩
    by_cases h : resp = v
    · subst h
      simp [applyBranches, matchingActs, ih, applySeq_append]
    · simp [applyBranches, matchingActs, h, ih]

/-- C9: executing an `Act` invokes its primitive once and then executes,
under the same `applySeq` contract as top-level execution, exactly the
nested sequences of the `on_response` entries whose declared value
equals the primitive's return value (exact string equality), in
declaration order. -/
theorem act_on_response_exact_match (oracle : Nat → String) (f : String)
    (args : List String) (kwargs : List (String × String))
    (onr : List (String × List Act)) (k : Nat) :
    applyAct oracle (.node f args kwargs onr) k =
      (f :: (applySeq oracle (matchingActs (oracle k) onr) (k + 1)).1,
       (applySeq oracle (matchingActs (oracle k) onr) (k + 1)).2) := by
  simp [applyAct, applyBranches_eq_matching]

/-- C4 counterexample: with the recheck flag set, the user always
confirming, and a solution whose fourth application fixes the check
(the fourth re-evaluation — if it ran — would return `PASSED`), the
loop still aborts with "max attempts" after 4 applications and only 3
re-evaluations: the fourth attempt is never re-evaluated, so the claim
that every attempt is followed by a re-evaluation, with a stop on
`PASSED`, fails. -/
theorem applySolution_fourth_attempt_not_rechecked :
    applySolution true (some true) (fun _ => true)
      (fun k => if k == 4 then some true else some false) =
      ⟨4, 3, .maxedOut⟩ := by
  decide

/-- C4 amended: with the recheck flag set and the user confirming every
prompt, the loop applies the action tree at most 4 times; the first
three applications are each followed by a re-evaluation and the loop
stops on the first re-evaluation that returns `PASSED`; if none of
those re-evaluations passes, it aborts with the reported "max
attempts" condition after exactly 4 applications and 3 re-evaluations
(the fourth application is not re-evaluated), never with an unhandled
failure. -/
theorem applySolution_retry_bounds (rc : Nat → Bool) (cr : Nat → Option Bool)
    (hrc : ∀ k, rc k = true) :
    ((∀ k, 1 ≤ k → k ≤ 3 → cr k ≠ some true) →
      applySolution true (some true) rc cr = ⟨4, 3, .maxedOut⟩) ∧
    (∀ j, 1 ≤ j → j ≤ 3 → cr j = some true →
      (∀ k, 1 ≤ k → k < j → cr k ≠ some true) →
      applySolution true (some true) rc cr = ⟨j, j, .passedAt j⟩) ∧
    (applySolution true (some true) rc cr).applies ≤ 4 := by
  refine ⟨?_, ?_, ?_⟩
  · intro h
    have e1 : (cr 1 == some true) = false := by
      simpa using h 1 (by omega) (by omega)
    have e2 : (cr 2 == some true) = false := by
      simpa using h 2 (by omega) (by omega)
    have e3 : (cr 3 == some true) = false := by
      simpa using h 3 (by omega) (by omega)
    simp [applySolution, applyLoop, e1, e2, e3, hrc]
  · intro j hj1 hj3 hj hlt
    interval_cases j
    · have e : (cr 1 == some true) = true := by simpa using hj
      simp [applySolution, applyLoop, e]
    · have e1 : (cr 1 == some true) = false := by
        simpa using hlt 1 (by omega) (by omega)
      have e : (cr 2 == some true) = true := by simpa using hj
      simp [applySolution, applyLoop, e1, e, hrc]
    · have e1 : (cr 1 == some true) = false := by
        simpa using hlt 1 (by omega) (by omega)
      have e2 : (cr 2 == some true) = false := by
        simpa using hlt 2 (by omega) (by omega)
      have e : (cr 3 == some true) = true := by simpa using hj
      simp [applySolution, applyLoop, e1, e2, e, hrc]
  · cases h1 : (cr 1 == some true) <;> cases h2 : (cr 2 == some true) <;>
      cases h3 : (cr 3 == some true) <;>
      simp [applySolution, applyLoop, h1, h2, h3, hrc]

/-- C4 witness: a check that never passes, with every prompt confirmed,
reaches the "max attempts" abort with 4 applications and 3
re-evaluations. -/
theorem applySolution_retry_bounds_witness :
    applySolution true (some true) (fun _ => true) (fun _ => some false) =
      ⟨4, 3, .maxedOut⟩ :=
  (applySolution_retry_bounds (fun _ => true) (fun _ => some false)
    (fun _ => rfl)).1 (fun _ _ _ => by simp)

/-- Case-insensitive comparison with `'.'` holds only for `'.'` itself:
no character lower-cases to code point 46. -/
theorem pyLowerCode_eq_dot_iff (c : Char) : pyLowerCode c = 46 ↔ c = '.' := by
  unfold pyLowerCode
  constructor
  · intro h
    split at h
    · omega
    · have hc : c = Char.ofNat 46 := by rw [← h, Char.ofNat_toNat]
      simpa using hc
  · intro h
    subst h
    decide

/-- C2 counterexample: the pattern `r:a\.c` writes its dot escaped, yet
the compiled pattern matches the text `axc`, which contains no dot at
all — the escaped dot was matched as "any character", not as a literal
`'.'`. -/
theorem regex_escaped_dot_matches_any :
    (Regex.make "r:a\\.c").check "axc" = some true ∧ '.' ∉ "axc".data := by
  constructor
  · rfl
  · decide

/-- C2 amended: the preprocessing of `Regex.__init__` swaps the two
spellings — an unescaped dot compiles to the escaped regex `\.`, which
the `r:`/`!r:`/`n:` matcher treats as the literal `'.'` only, while an
escaped `\.` compiles to the bare regex `.`, which the matcher treats
as "any character except newline". -/
theorem regex_dot_semantics (c : Char) (h : c ≠ '\n') :
    compileChains "r:a.c" = ["r:a\\.c"] ∧
    compileChains "r:a\\.c" = ["r:a.c"] ∧
    parseRegex "a\\.c".data =
      some [.piece (.lit 'a') .one, .piece (.lit '.') .one,
        .piece (.lit 'c') .one] ∧
    parseRegex "a.c".data =
      some [.piece (.lit 'a') .one, .piece .anyChar .one,
        .piece (.lit 'c') .one] ∧
    (atomMatch (.lit '.') c = true ↔ c = '.') ∧
    atomMatch .anyChar c = true := by
  refine ⟨by rfl, by rfl, by rfl, by rfl, ?_, ?_⟩
  · have : atomMatch (.lit '.') c = (pyLowerCode c == 46) := by
      simp [atomMatch, ciEq]
      rfl
    rw [this]
    simp [pyLowerCode_eq_dot_iff]
  · simp [atomMatch, h]

/-- C2 amended witness: the literal-dot atom rejects `'x'` while the
any-character atom accepts it, for the two compiled spellings above. -/
theorem regex_dot_semantics_witness :
    compileChains "r:a.c" = ["r:a\\.c"] ∧
    compileChains "r:a\\.c" = ["r:a.c"] ∧
    parseRegex "a\\.c".data =
      some [.piece (.lit 'a') .one, .piece (.lit '.') .one,
        .piece (.lit 'c') .one] ∧
    parseRegex "a.c".data =
      some [.piece (.lit 'a') .one, .piece .anyChar .one,
        .piece (.lit 'c') .one] ∧
    (atomMatch (.lit '.') 'x' = true ↔ 'x' = '.') ∧
    atomMatch .anyChar 'x' = true :=
  regex_dot_semantics 'x' (by decide)

/-- C5: when `Regex.check` returns without an exception, it returns
`True` exactly when at least one line of the text (split on newline)
satisfies every compiled chain (conjunction over chains within a line,
disjunction over lines); and a chain that is not an `r:`, `!r:` or `n:`
form satisfies a line exactly when the chain text equals the whole
line. -/
theorem regex_check_line_semantics (p text : String) (b : Bool)
    (chain line : String)
    (hck : (Regex.make p).check text = some b)
    (h1 : pyStartswith chain "r:" = false)
    (h2 : pyStartswith chain "!r:" = false)
    (h3 : pyStartswith chain "n:" = false) :
    (b = true ↔ ∃ l ∈ pyLines text,
      ∀ c ∈ (Regex.make p).chains, chainEval c l = some true) ∧
    chainEval chain line = some (chain == line) := by
  constructor
  · exact (checkLines_spec (Regex.make p).chains (pyLines text) b hck).trans
      (exists_congr fun l =>
        and_congr_right fun _ => lineEval_true_iff (Regex.make p).chains l)
  · simp [chainEval, h1, h2, h3]

/-- C5 witness: pattern `abc` against the text `xabc\nabc`: the check
returns `True` because the second line is exactly `abc`; a plain chain
compares by equality, so it does not hold on the line `xabc`. -/
theorem regex_check_line_semantics_witness :
    ((true = true) ↔ ∃ l ∈ pyLines "xabc\nabc",
      ∀ c ∈ (Regex.make "abc").chains, chainEval c l = some true) ∧
    chainEval "abc" "xabc" = some ("abc" == "xabc") :=
  regex_check_line_semantics "abc" "xabc\nabc" true "abc" "xabc"
    (by rfl) (by rfl) (by rfl) (by rfl)

end SCA
